import Mathlib

/-!
Shallow embedding of `src/webfront_v5/WebcamClassifier.js` (an online few-shot
webcam classifier based on k-nearest-neighbour voting over stored feature
vectors), together with proofs of the behavioural claims about it.

Modelling conventions:
* Per-class logits matrices are `Option (List α)`: `none` is JavaScript `null`,
  `some rows` is an NDArray whose axis-0 slices are the stored feature vectors
  (rows).  The element type `α` of a row is kept abstract for the structural
  operations, since they never inspect vector contents.
* JavaScript field mutation with a possible thrown `TypeError` is modelled by
  `JSOutcome`: both constructors carry the post-state, because in JavaScript
  the assignments performed before the throwing statement persist on the
  object.
* The deep-learning library (`math.concat3D`, `math.topK`, `matMul`, …) is the
  delegated black box the spec excludes; its reshape operations (`as3D`/`as2D`)
  throw on a size mismatch, which the model reflects with explicit guards, and
  `topK`'s output is an oracle parameter constrained only by its length.
* The numeric feature pipeline (`captureFrameSqueezeNetLogits`) is modelled
  separately over `ℝ` since it is about real arithmetic, not state.
-/

namespace WebcamClassifier

/-- `const IMAGE_SIZE = 227` in the source. -/
def IMAGE_SIZE : ℕ := 227

/-- `const INPUT_SIZE = 1000` in the source: the length of a logits vector. -/
def INPUT_SIZE : ℕ := 1000

/-- `const TOPK = 10` in the source. -/
def TOPK : ℕ := 10

/-- `const CLASS_COUNT = 3` in the source. -/
def CLASS_COUNT : ℕ := 3

/-- The mutable classifier state: the fields of the `WebcamClassifier` object
that the recording/clearing/classification logic reads or writes.
`trainClassLogitsMatrices` and `classExampleCount` are the per-class stores
(constructor pushes `CLASS_COUNT` entries), `trainLogitsMatrix` is the cached
concatenated reference set, `current`/`isDown` mirror the recording pointer
set by `buttonDown`/`buttonUp`, and `sampleCounts i` mirrors
`this.classes[this.classNames[i]].sampleCount`. -/
structure ClassifierState (α : Type) where
  trainClassLogitsMatrices : List (Option (List α))
  classExampleCount : List ℕ
  trainLogitsMatrix : Option (List α)
  current : Option ℕ
  isDown : Bool
  sampleCounts : List ℕ
deriving DecidableEq, Repr

/-- Outcome of running one JavaScript method: `ok` is normal completion,
`thrown` is an uncaught `TypeError`.  Both carry the resulting object state,
because field assignments made before the throwing statement persist. -/
inductive JSOutcome (α : Type) where
  | ok (s : ClassifierState α)
  | thrown (s : ClassifierState α)
deriving DecidableEq, Repr

variable {α : Type}

/-- The constructor's initialisation of the modelled fields (lines 61-87 of
the source): `CLASS_COUNT` null matrices, `CLASS_COUNT` zero counts, null
cached matrix, no selected class, button up, zero sample counts. -/
def initState (α : Type) : ClassifierState α where
  trainClassLogitsMatrices := List.replicate CLASS_COUNT none
  classExampleCount := List.replicate CLASS_COUNT 0
  trainLogitsMatrix := none
  current := none
  isDown := false
  sampleCounts := List.replicate CLASS_COUNT 0

/-- `buttonDown(id)`: selects the class (here by index) and marks recording. -/
def buttonDown (s : ClassifierState α) (i : ℕ) : ClassifierState α :=
  { s with current := some i, isDown := true }

/-- `buttonUp()`: clears the selection and recording flag. -/
def buttonUp (s : ClassifierState α) : ClassifierState α :=
  { s with current := none, isDown := false }

/-- `getNumExamples()`: sums `classExampleCount` over its whole length. -/
def getNumExamples (s : ClassifierState α) : ℕ :=
  s.classExampleCount.sum

/-- `deleteClassData(index)` (source lines 90-99).  The guard is JavaScript
truthiness of `trainClassLogitsMatrices[index]` (both `null` and the
out-of-range `undefined` are falsy).  When the guard passes, the class matrix
is nulled first; then `this.trainLogitsMatrix.dispose()` runs with NO null
check, so if the cached matrix is already `null` a `TypeError` is thrown at
that point, after the class matrix was nulled but before the counts were
reset. -/
def deleteClassData (s : ClassifierState α) (i : ℕ) : JSOutcome α :=
  if (s.trainClassLogitsMatrices.getD i none).isSome then
    let s1 := { s with trainClassLogitsMatrices := s.trainClassLogitsMatrices.set i none }
    match s1.trainLogitsMatrix with
    | none => JSOutcome.thrown s1
    | some _ =>
        JSOutcome.ok { s1 with
          trainLogitsMatrix := none,
          classExampleCount := s1.classExampleCount.set i 0,
          sampleCounts := s1.sampleCounts.set i 0 }
  else JSOutcome.ok s

/-- `saveTrainingLogits()` (source lines 179-204).  First the cached
`trainLogitsMatrix` is invalidated (null-checked dispose, lines 180-183); the
frame is captured; then `this.current.index` is read, throwing if no class is
selected.  A strict `=== null` check picks the first-example branch; an
in-range non-null matrix is reshaped with `as3D(classExampleCount[i],
INPUT_SIZE, 1)`, which throws on a row-count mismatch, and otherwise the new
row is concatenated along axis 0.  An out-of-range index gives `undefined`,
which fails the `=== null` check and then throws on `undefined.as3D`.
Finally the class count is incremented.  `v` is the captured frame's feature
vector. -/
def saveTrainingLogits (s : ClassifierState α) (v : α) : JSOutcome α :=
  let s1 := { s with trainLogitsMatrix := (none : Option (List α)) }
  match s1.current with
  | none => JSOutcome.thrown s1
  | some i =>
    match s1.trainClassLogitsMatrices[i]? with
    | some none =>
        JSOutcome.ok { s1 with
          trainClassLogitsMatrices := s1.trainClassLogitsMatrices.set i (some [v]),
          classExampleCount :=
            s1.classExampleCount.set i (s1.classExampleCount.getD i 0 + 1) }
    | some (some m) =>
        if s1.classExampleCount.getD i 0 = m.length then
          JSOutcome.ok { s1 with
            trainClassLogitsMatrices := s1.trainClassLogitsMatrices.set i (some (m ++ [v])),
            classExampleCount :=
              s1.classExampleCount.set i (s1.classExampleCount.getD i 0 + 1) }
        else JSOutcome.thrown s1
    | none => JSOutcome.thrown s1

/-- `getClassFromIndex`'s loop body (source lines 316-322), recursing over the
`CLASS_COUNT` entries of `classExampleCount`: `none` means the loop fell
through to the out-of-range fallback `return 2`. -/
def getClassFromIndexAux : List ℕ → ℕ → ℕ → ℕ → Option ℕ
  | [], _, _, _ => none
  | c :: rest, i, prevSum, ind =>
      if i < c + prevSum then some ind
      else getClassFromIndexAux rest i (prevSum + c) (ind + 1)

/-- `getClassFromIndex(index)` (source lines 315-325): the loop over the class
counts, with the fallback `return 2` when the loop completes.  Faithful to the
source for `counts` of length `CLASS_COUNT`, which the constructor
guarantees. -/
def getClassFromIndex (counts : List ℕ) (i : ℕ) : ℕ :=
  (getClassFromIndexAux counts i 0 0).getD 2

/-- `concat(ndarray1, ndarray2)` (source lines 327-340): null short-circuits,
otherwise `concat3D` along axis 0, i.e. row concatenation. -/
def concat (m1 m2 : Option (List α)) : Option (List α) :=
  match m1, m2 with
  | none, m2 => m2
  | m1, none => m1
  | some a, some b => some (a ++ b)

/-- The reference-set rebuild inside `animate` (source lines 264-272): fold
`concat` over the per-class matrices in class order, starting from `null`. -/
def buildReferenceSet (s : ClassifierState α) : Option (List α) :=
  (List.range CLASS_COUNT).foldl
    (fun acc i => concat acc (s.trainClassLogitsMatrices.getD i none)) none

/-- The `classTopKMap` accumulation (source lines 284-287): starting from
`[0, 0, 0]`, bump the bucket of each selected row's class. -/
def classTopKMap (counts : List ℕ) (indices : List ℕ) : List ℕ :=
  indices.foldl
    (fun m idx =>
      let c := getClassFromIndex counts idx
      m.set c (m.getD c 0 + 1))
    [0, 0, 0]

/-- The confidence computation (source lines 289-293): per class,
`classTopKMap[index] / kVal`, as exact rationals. -/
def computeConfidences (counts : List ℕ) (indices : List ℕ) (kVal : ℕ) : List ℚ :=
  (List.range CLASS_COUNT).map
    (fun i => ((classTopKMap counts indices).getD i 0 : ℚ) / (kVal : ℚ))

/-- One `animate()` tick (source lines 244-313), with the library's asynchrony
flattened.  `v` is the current frame's feature vector and `topk` is the oracle
for `mathCPU.topK`, called at `kVal = min(TOPK, numExamples)`.  Returns the
outcome on the state together with the confidence vector passed to
`options.setConfidences`, when one is emitted this tick:

* recording branch (`isDown`): `this.current.index` is evaluated at the call
  site (throws if `current` is null, before any mutation), then
  `saveTrainingLogits` runs and on success `current.sampleCount` is bumped;
* classification branch (`getNumExamples() > 0`): rebuild the cached matrix if
  null (`math.clone(null)` throws when every class matrix is null), reshape it
  with `as2D(numExamples, 1000)` (throws on a row-count mismatch), then emit
  the confidences;
* idle branch: reschedule only, nothing emitted. -/
def animate (s : ClassifierState α) (v : α) (topk : ℕ → List ℕ) :
    JSOutcome α × Option (List ℚ) :=
  if s.isDown then
    match s.current with
    | none => (JSOutcome.thrown s, none)
    | some i =>
      match saveTrainingLogits s v with
      | JSOutcome.ok s1 =>
          (JSOutcome.ok { s1 with
            sampleCounts := s1.sampleCounts.set i (s1.sampleCounts.getD i 0 + 1) }, none)
      | JSOutcome.thrown s1 => (JSOutcome.thrown s1, none)
  else if 0 < getNumExamples s then
    let n := getNumExamples s
    let rebuilt : Option (List α) :=
      match s.trainLogitsMatrix with
      | none => buildReferenceSet s
      | some m => some m
    match rebuilt with
    | none => (JSOutcome.thrown s, none)
    | some m =>
      if m.length = n then
        let kVal := min TOPK n
        (JSOutcome.ok { s with trainLogitsMatrix := some m },
          some (computeConfidences s.classExampleCount (topk kVal) kVal))
      else (JSOutcome.thrown { s with trainLogitsMatrix := some m }, none)
  else (JSOutcome.ok s, none)

/-- The stored example sequence of class `i`, reading `null` as empty. -/
def exampleSet (s : ClassifierState α) (i : ℕ) : List α :=
  (s.trainClassLogitsMatrices.getD i none).getD []

/-- Both per-class stores have the constructor's length `CLASS_COUNT`. -/
def SizeInv (s : ClassifierState α) : Prop :=
  s.classExampleCount.length = CLASS_COUNT ∧
    s.trainClassLogitsMatrices.length = CLASS_COUNT

/-- The count/matrix coupling: a class's count is positive exactly when its
stored matrix is non-null. -/
def CountMatrixInv (s : ClassifierState α) : Prop :=
  ∀ i < CLASS_COUNT,
    (0 < s.classExampleCount.getD i 0 ↔
      (s.trainClassLogitsMatrices.getD i none).isSome)

/-- Row-count accuracy: each class's stored row count equals its example
count (a null matrix counting as zero rows). -/
def RowCountInv (s : ClassifierState α) : Prop :=
  ∀ i < CLASS_COUNT,
    (exampleSet s i).length = s.classExampleCount.getD i 0

/-- Cache consistency: a non-null cached `trainLogitsMatrix` has exactly
`getNumExamples` rows. -/
def CacheInv (s : ClassifierState α) : Prop :=
  ∀ m, s.trainLogitsMatrix = some m → m.length = getNumExamples s

instance : DecidablePred (SizeInv (α := α)) := fun _ => by
  unfold SizeInv; infer_instance

instance : DecidablePred (CountMatrixInv (α := α)) := fun _ => by
  unfold CountMatrixInv; infer_instance

instance : DecidablePred (RowCountInv (α := α)) := fun _ => by
  unfold RowCountInv; infer_instance

/-- The cumulative-range membership predicate of the spec: row index `i` falls
in class `c`'s block, i.e. the counts of the classes before `c` sum to at most
`i`, and `i` is below that sum plus class `c`'s own count. -/
def cumRange (counts : List ℕ) (c i : ℕ) : Prop :=
  (counts.take c).sum ≤ i ∧ i < (counts.take c).sum + counts.getD c 0

instance (counts : List ℕ) (c i : ℕ) : Decidable (cumRange counts c i) := by
  unfold cumRange; infer_instance

/-- The state reached from the fresh classifier by `buttonDown` on class `0`
followed by one recorded example (feature vector `7`): class `0` holds one
row and the cached training matrix is null, exactly as `saveTrainingLogits`
leaves it. -/
def recordedState : ClassifierState ℕ where
  trainClassLogitsMatrices := [some [7], none, none]
  classExampleCount := [1, 0, 0]
  trainLogitsMatrix := none
  current := some 0
  isDown := true
  sampleCounts := [0, 0, 0]

/-- The state in which the `TypeError` of `deleteClassData(0)` on
`recordedState` is raised: class `0`'s matrix is already nulled but its
count is still `1`. -/
def brokenState : ClassifierState ℕ where
  trainClassLogitsMatrices := [none, none, none]
  classExampleCount := [1, 0, 0]
  trainLogitsMatrix := none
  current := some 0
  isDown := true
  sampleCounts := [0, 0, 0]


/-- The classification-tick state: `recordedState` after `buttonUp`, i.e.
one stored example for class `0`, button up, no class selected, null cache. -/
def recordedClassifyState : ClassifierState ℕ where
  trainClassLogitsMatrices := [some [7], none, none]
  classExampleCount := [1, 0, 0]
  trainLogitsMatrix := none
  current := none
  isDown := false
  sampleCounts := [0, 0, 0]

/-- Sum of squares of a vector: `multiplyStrict(x, x)` then `sum` (source
lines 362-363), over idealized reals. -/
noncomputable def sumSq (v : List ℝ) : ℝ :=
  (v.map (fun x => x * x)).sum

/-- `this.squashLogitsDenominator = Scalar.new(300)` (source line 77). -/
noncomputable def squashLogitsDenominator : ℝ := 300

/-- The squash step (source line 359): elementwise division of the raw logits
by the fixed denominator `300`. -/
noncomputable def squashLogits (logits : List ℝ) : List ℝ :=
  logits.map (fun x => x / squashLogitsDenominator)

/-- The numeric post-processing of `captureFrameSqueezeNetLogits` (source
lines 359-366): squash the raw logits, then divide elementwise by the square
root of the sum of squares.  The camera capture and SqueezeNet inference that
produce `logits` are the delegated feature extractor. -/
noncomputable def captureFrameSqueezeNetLogits (logits : List ℝ) : List ℝ :=
  let squashedLogits := squashLogits logits
  let sqrtSum := Real.sqrt (sumSq squashedLogits)
  squashedLogits.map (fun x => x / sqrtSum)

/-- The L2 norm of a vector: square root of the sum of squares. -/
noncomputable def l2norm (v : List ℝ) : ℝ :=
  Real.sqrt (sumSq v)

end WebcamClassifier

namespace WebcamClassifier

/-- A list of length `CLASS_COUNT` is a three-element list. -/
theorem exists_three_of_length (l : List ℕ) (h : l.length = CLASS_COUNT) :
    ∃ a b c, l = [a, b, c] := by
  match l, h with
  | [a, b, c], _ => exact ⟨a, b, c, rfl⟩

/-- C1: for every state of the classifier and every global row index `i` with
`0 ≤ i <` total example count, `getClassFromIndex i` returns exactly the class
whose cumulative example-count range contains `i` under the fixed class
ordering (the unique `c` with sum of counts before `c` `≤ i <` that sum plus
class `c`'s count); in particular the loop returns before the out-of-range
fallback (`getClassFromIndexAux` yields `some`), so the fallback value is
never the source of the answer for in-range `i`. -/
theorem getClassFromIndex_correct (counts : List ℕ) (i : ℕ)
    (hlen : counts.length = CLASS_COUNT) (hi : i < counts.sum) :
    getClassFromIndexAux counts i 0 0 = some (getClassFromIndex counts i) ∧
    cumRange counts (getClassFromIndex counts i) i ∧
    ∀ c < CLASS_COUNT, cumRange counts c i → c = getClassFromIndex counts i := by
  obtain ⟨a, b, c, rfl⟩ := exists_three_of_length counts hlen
  simp only [List.sum_cons, List.sum_nil] at hi
  simp only [getClassFromIndex, getClassFromIndexAux, cumRange]
  split_ifs with h1 h2 h3
  · refine ⟨rfl, ⟨by simp, by simpa using h1⟩, ?_⟩
    intro c' hc' hcum
    simp only [CLASS_COUNT] at hc'
    interval_cases c' <;> simp_all <;> omega
  · refine ⟨rfl, ⟨by simp; omega, by simp; omega⟩, ?_⟩
    intro c' hc' hcum
    simp only [CLASS_COUNT] at hc'
    interval_cases c' <;> simp_all <;> omega
  · refine ⟨rfl, ⟨by simp; omega, by simp; omega⟩, ?_⟩
    intro c' hc' hcum
    simp only [CLASS_COUNT] at hc'
    interval_cases c' <;> simp_all <;> omega
  · omega

/-- Witness for C1 at a concrete input: counts `[2, 1, 3]`, row index `4`
lies in class `2`'s block. -/
theorem getClassFromIndex_correct_witness :
    ([2, 1, 3] : List ℕ).length = CLASS_COUNT ∧ (4 : ℕ) < ([2, 1, 3] : List ℕ).sum ∧
      (getClassFromIndexAux [2, 1, 3] 4 0 0 = some (getClassFromIndex [2, 1, 3] 4) ∧
        cumRange [2, 1, 3] (getClassFromIndex [2, 1, 3] 4) 4 ∧
        ∀ c < CLASS_COUNT, cumRange [2, 1, 3] c 4 → c = getClassFromIndex [2, 1, 3] 4) :=
  ⟨by decide, by decide, getClassFromIndex_correct [2, 1, 3] 4 (by decide) (by decide)⟩

end WebcamClassifier

namespace WebcamClassifier

variable {α : Type}

/-- Reading an updated position: `set` then `getD` at the same in-range index
gives the written value. -/
theorem getD_set_self {β : Type} (l : List β) (i : ℕ) (x d : β) (h : i < l.length) :
    (l.set i x).getD i d = x := by
  simp [List.getD_eq_getElem?_getD, List.getElem?_set_self h]

/-- Reading an untouched position: `set` then `getD` at a different index is
unchanged. -/
theorem getD_set_ne {β : Type} (l : List β) (i j : ℕ) (x d : β) (h : i ≠ j) :
    (l.set i x).getD j d = l.getD j d := by
  simp [List.getD_eq_getElem?_getD, List.getElem?_set_ne h]

/-- `saveTrainingLogits`, no-selection path: only the cached matrix is nulled
before `this.current.index` throws. -/
theorem saveTrainingLogits_eq_of_no_current (s : ClassifierState α) (v : α)
    (h : s.current = none) :
    saveTrainingLogits s v = JSOutcome.thrown { s with trainLogitsMatrix := none } := by
  simp [saveTrainingLogits, h]

/-- `saveTrainingLogits`, first-example path: the class matrix is `null`, so
it becomes the one-row matrix `[v]` and the count is bumped. -/
theorem saveTrainingLogits_eq_of_null (s : ClassifierState α) (v : α) (i : ℕ)
    (hcur : s.current = some i) (hm : s.trainClassLogitsMatrices[i]? = some none) :
    saveTrainingLogits s v = JSOutcome.ok
      { s with
          trainLogitsMatrix := none
          trainClassLogitsMatrices := s.trainClassLogitsMatrices.set i (some [v])
          classExampleCount :=
            s.classExampleCount.set i (s.classExampleCount.getD i 0 + 1) } := by
  simp [saveTrainingLogits, hcur, hm]

/-- `saveTrainingLogits`, append path: a non-null class matrix whose row count
matches the class count gets the new row concatenated and the count bumped. -/
theorem saveTrainingLogits_eq_of_rows (s : ClassifierState α) (v : α) (i : ℕ)
    (m : List α) (hcur : s.current = some i)
    (hm : s.trainClassLogitsMatrices[i]? = some (some m))
    (hguard : s.classExampleCount.getD i 0 = m.length) :
    saveTrainingLogits s v = JSOutcome.ok
      { s with
          trainLogitsMatrix := none
          trainClassLogitsMatrices := s.trainClassLogitsMatrices.set i (some (m ++ [v]))
          classExampleCount :=
            s.classExampleCount.set i (s.classExampleCount.getD i 0 + 1) } := by
  have hguard2 : s.classExampleCount[i]?.getD 0 = m.length := by
    simpa [List.getD_eq_getElem?_getD] using hguard
  simp [saveTrainingLogits, hcur, hm, hguard2]

/-- `saveTrainingLogits`, reshape-mismatch path: a non-null class matrix whose
row count disagrees with the class count makes `as3D` throw after the cache
was nulled. -/
theorem saveTrainingLogits_eq_of_mismatch (s : ClassifierState α) (v : α) (i : ℕ)
    (m : List α) (hcur : s.current = some i)
    (hm : s.trainClassLogitsMatrices[i]? = some (some m))
    (hguard : s.classExampleCount.getD i 0 ≠ m.length) :
    saveTrainingLogits s v = JSOutcome.thrown { s with trainLogitsMatrix := none } := by
  have hguard2 : ¬ s.classExampleCount[i]?.getD 0 = m.length := by
    simpa [List.getD_eq_getElem?_getD] using hguard
  simp [saveTrainingLogits, hcur, hm, hguard2]

/-- `saveTrainingLogits`, out-of-range path: `undefined.as3D` throws after the
cache was nulled. -/
theorem saveTrainingLogits_eq_of_oob (s : ClassifierState α) (v : α) (i : ℕ)
    (hcur : s.current = some i) (hm : s.trainClassLogitsMatrices[i]? = none) :
    saveTrainingLogits s v = JSOutcome.thrown { s with trainLogitsMatrix := none } := by
  simp [saveTrainingLogits, hcur, hm]

/-- `deleteClassData`, falsy-guard path: nothing happens. -/
theorem deleteClassData_eq_of_falsy (s : ClassifierState α) (i : ℕ)
    (h : s.trainClassLogitsMatrices.getD i none = none) :
    deleteClassData s i = JSOutcome.ok s := by
  unfold deleteClassData
  rw [h]
  simp

/-- `deleteClassData`, null-cache path: the class matrix is nulled, then
`null.dispose()` throws with the counts untouched. -/
theorem deleteClassData_eq_of_null_cache (s : ClassifierState α) (i : ℕ) (m : List α)
    (h : s.trainClassLogitsMatrices.getD i none = some m)
    (hc : s.trainLogitsMatrix = none) :
    deleteClassData s i = JSOutcome.thrown
      { s with trainClassLogitsMatrices := s.trainClassLogitsMatrices.set i none } := by
  unfold deleteClassData
  rw [h]
  simp only [Option.isSome_some, if_true]
  rw [hc]

/-- `deleteClassData`, normal path: class matrix nulled, cache nulled, both
counts of the class zeroed. -/
theorem deleteClassData_eq_of_cache (s : ClassifierState α) (i : ℕ) (m t : List α)
    (h : s.trainClassLogitsMatrices.getD i none = some m)
    (hc : s.trainLogitsMatrix = some t) :
    deleteClassData s i = JSOutcome.ok
      { s with
          trainClassLogitsMatrices := s.trainClassLogitsMatrices.set i none
          trainLogitsMatrix := none
          classExampleCount := s.classExampleCount.set i 0
          sampleCounts := s.sampleCounts.set i 0 } := by
  unfold deleteClassData
  rw [h]
  simp only [Option.isSome_some, if_true]
  rw [hc]

end WebcamClassifier

namespace WebcamClassifier

variable {α : Type}

/-- C9: invoking the record-example operation with no class selected fails
fast: `saveTrainingLogits` throws (at the `this.current.index` access) rather
than silently no-opping, and no example set and no count is modified without
the error being raised — the thrown state's per-class matrices, counts and
sample counts are those of the input state. -/
theorem saveTrainingLogits_no_current_throws (s : ClassifierState α) (v : α)
    (h : s.current = none) :
    ∃ s', saveTrainingLogits s v = JSOutcome.thrown s' ∧
      s'.trainClassLogitsMatrices = s.trainClassLogitsMatrices ∧
      s'.classExampleCount = s.classExampleCount ∧
      s'.sampleCounts = s.sampleCounts :=
  ⟨{ s with trainLogitsMatrix := none },
    saveTrainingLogits_eq_of_no_current s v h, rfl, rfl, rfl⟩

/-- Witness for C9 at the freshly constructed state, which has no class
selected. -/
theorem saveTrainingLogits_no_current_throws_witness :
    (initState ℕ).current = none ∧
      ∃ s', saveTrainingLogits (initState ℕ) 0 = JSOutcome.thrown s' ∧
        s'.trainClassLogitsMatrices = (initState ℕ).trainClassLogitsMatrices ∧
        s'.classExampleCount = (initState ℕ).classExampleCount ∧
        s'.sampleCounts = (initState ℕ).sampleCounts :=
  ⟨rfl, saveTrainingLogits_no_current_throws (initState ℕ) 0 rfl⟩

/-- C3: with class `i` selected, `saveTrainingLogits` succeeds, appends the
captured frame's feature vector to exactly that class's example set,
increments exactly that class's count by one, leaves every other class's set
and count unchanged, and nulls the cached training matrix. -/
theorem saveTrainingLogits_appends (s : ClassifierState α) (v : α) (i : ℕ)
    (hcur : s.current = some i) (hi : i < CLASS_COUNT)
    (hsize : SizeInv s) (hrow : RowCountInv s) :
    ∃ s', saveTrainingLogits s v = JSOutcome.ok s' ∧
      exampleSet s' i = exampleSet s i ++ [v] ∧
      s'.classExampleCount.getD i 0 = s.classExampleCount.getD i 0 + 1 ∧
      (∀ j, j ≠ i → exampleSet s' j = exampleSet s j ∧
        s'.classExampleCount.getD j 0 = s.classExampleCount.getD j 0) ∧
      s'.trainLogitsMatrix = none := by
  obtain ⟨hclen, hmlen⟩ := hsize
  have hilt : i < s.trainClassLogitsMatrices.length := by omega
  have hiclt : i < s.classExampleCount.length := by omega
  cases hm : s.trainClassLogitsMatrices[i]? with
  | none =>
    exact absurd (List.getElem?_eq_none_iff.mp hm) (by omega)
  | some o =>
    have hmd : s.trainClassLogitsMatrices.getD i none = o := by
      simp [List.getD_eq_getElem?_getD, hm]
    cases o with
    | none =>
      refine ⟨_, saveTrainingLogits_eq_of_null s v i hcur hm, ?_, ?_, ?_, rfl⟩
      · simp only [exampleSet]
        rw [getD_set_self _ _ _ _ hilt, hmd]
        simp
      · exact getD_set_self _ _ _ _ hiclt
      · intro j hj
        constructor
        · simp only [exampleSet]
          rw [getD_set_ne _ _ _ _ _ (fun h => hj h.symm)]
        · exact getD_set_ne _ _ _ _ _ (fun h => hj h.symm)
    | some m =>
      have hguard : s.classExampleCount.getD i 0 = m.length := by
        have hr := hrow i hi
        simp only [exampleSet, hmd, Option.getD_some] at hr
        omega
      refine ⟨_, saveTrainingLogits_eq_of_rows s v i m hcur hm hguard, ?_, ?_, ?_, rfl⟩
      · simp only [exampleSet]
        rw [getD_set_self _ _ _ _ hilt, hmd]
        simp
      · exact getD_set_self _ _ _ _ hiclt
      · intro j hj
        constructor
        · simp only [exampleSet]
          rw [getD_set_ne _ _ _ _ _ (fun h => hj h.symm)]
        · exact getD_set_ne _ _ _ _ _ (fun h => hj h.symm)

/-- Witness for C3: recording a first example for class `0` from the fresh
state appends it and bumps the count. -/
theorem saveTrainingLogits_appends_witness :
    (buttonDown (initState ℕ) 0).current = some 0 ∧
      ∃ s', saveTrainingLogits (buttonDown (initState ℕ) 0) 7 = JSOutcome.ok s' ∧
        exampleSet s' 0 = exampleSet (buttonDown (initState ℕ) 0) 0 ++ [7] ∧
        s'.classExampleCount.getD 0 0 =
          (buttonDown (initState ℕ) 0).classExampleCount.getD 0 0 + 1 ∧
        (∀ j, j ≠ 0 → exampleSet s' j = exampleSet (buttonDown (initState ℕ) 0) j ∧
          s'.classExampleCount.getD j 0 =
            (buttonDown (initState ℕ) 0).classExampleCount.getD j 0) ∧
        s'.trainLogitsMatrix = none :=
  ⟨rfl, saveTrainingLogits_appends (buttonDown (initState ℕ) 0) 7 0 rfl
    (by decide) (by decide) (by decide)⟩

/-- C5: clearing a class that holds no examples is a no-op that raises no
error: under the count/matrix coupling of reachable states, a zero count means
the class matrix is null, so the truthiness guard fails and `deleteClassData`
returns with the whole state (counts, example sets, cached matrix)
untouched. -/
theorem deleteClassData_empty_noop (s : ClassifierState α) (i : ℕ)
    (hsize : SizeInv s) (hinv : CountMatrixInv s)
    (hcount : s.classExampleCount.getD i 0 = 0) :
    deleteClassData s i = JSOutcome.ok s := by
  apply deleteClassData_eq_of_falsy
  by_cases hi : i < CLASS_COUNT
  · have h := hinv i hi
    rw [hcount] at h
    simp only [lt_irrefl, false_iff] at h
    exact Option.not_isSome_iff_eq_none.mp h
  · have hlen : s.trainClassLogitsMatrices.length ≤ i := by
      have := hsize.2
      omega
    simp [List.getD_eq_getElem?_getD, List.getElem?_eq_none hlen]

/-- Witness for C5: clearing class `1` of the fresh (empty) state is a
no-op. -/
theorem deleteClassData_empty_noop_witness :
    SizeInv (initState ℕ) ∧ CountMatrixInv (initState ℕ) ∧
      (initState ℕ).classExampleCount.getD 1 0 = 0 ∧
      deleteClassData (initState ℕ) 1 = JSOutcome.ok (initState ℕ) :=
  ⟨by decide, by decide, by decide,
    deleteClassData_empty_noop (initState ℕ) 1 (by decide) (by decide) (by decide)⟩

/-- C4 (code bug): `recordedState` is reachable — it is exactly the result of
recording one example for class `0` from the fresh state — class `0` has a
stored example, and the cached training matrix is null; yet `deleteClassData`
on class `0` throws (`this.trainLogitsMatrix.dispose()` runs on `null`)
instead of succeeding, leaving the class matrix nulled while the count is
still positive. -/
theorem deleteClassData_null_cache_throws :
    saveTrainingLogits (buttonDown (initState ℕ) 0) 7 = JSOutcome.ok recordedState ∧
    (recordedState.trainClassLogitsMatrices.getD 0 none).isSome = true ∧
    recordedState.trainLogitsMatrix = none ∧
    deleteClassData recordedState 0 = JSOutcome.thrown brokenState ∧
    brokenState.classExampleCount.getD 0 0 = 1 := by decide

end WebcamClassifier

namespace WebcamClassifier

variable {α : Type}

/-- A list of length `CLASS_COUNT` is a three-element list (any element
type). -/
theorem length_three_cases {β : Type} (l : List β) (h : l.length = CLASS_COUNT) :
    ∃ a b c, l = [a, b, c] := by
  match l, h with
  | [a, b, c], _ => exact ⟨a, b, c, rfl⟩

/-- Unfolding the rebuild loop over the three per-class matrices. -/
theorem buildReferenceSet_eq (s : ClassifierState α) (m0 m1 m2 : Option (List α))
    (hm : s.trainClassLogitsMatrices = [m0, m1, m2]) :
    buildReferenceSet s = concat (concat (concat none m0) m1) m2 := by
  have hr : List.range CLASS_COUNT = [0, 1, 2] := rfl
  rw [buildReferenceSet, hr, hm]
  rfl

/-- The rebuilt reference set under the reachable-state invariants: its row
count is the total example count, and when that total is positive it is
exactly the concatenation of the class example sets in class order (empty
classes contributing no rows). -/
theorem buildReferenceSet_spec (s : ClassifierState α)
    (hsize : SizeInv s) (hrow : RowCountInv s) :
    ((buildReferenceSet s).getD []).length = getNumExamples s ∧
    (0 < getNumExamples s →
      buildReferenceSet s = some (exampleSet s 0 ++ exampleSet s 1 ++ exampleSet s 2)) := by
  obtain ⟨hclen, hmlen⟩ := hsize
  obtain ⟨c0, c1, c2, hc⟩ := length_three_cases s.classExampleCount hclen
  obtain ⟨m0, m1, m2, hm⟩ := length_three_cases s.trainClassLogitsMatrices hmlen
  have h0 := hrow 0 (by norm_num [CLASS_COUNT])
  have h1 := hrow 1 (by norm_num [CLASS_COUNT])
  have h2 := hrow 2 (by norm_num [CLASS_COUNT])
  simp only [exampleSet, hm, hc, List.getD_cons_zero, List.getD_cons_succ] at h0 h1 h2
  rw [buildReferenceSet_eq s m0 m1 m2 hm]
  constructor
  · rw [getNumExamples, hc]
    rcases m0 with _ | a <;> rcases m1 with _ | b <;> rcases m2 with _ | d <;>
      simp only [concat, Option.getD_some, Option.getD_none, List.length_append,
        List.length_nil, List.sum_cons, List.sum_nil] at h0 h1 h2 ⊢ <;> omega
  · intro hpos
    rw [getNumExamples, hc] at hpos
    simp only [exampleSet, hm, List.getD_cons_zero, List.getD_cons_succ]
    rcases m0 with _ | a <;> rcases m1 with _ | b <;> rcases m2 with _ | d <;>
      simp only [concat, Option.getD_some, Option.getD_none, List.length_nil,
        List.append_nil, List.nil_append, Option.some.injEq, List.sum_cons,
        List.sum_nil] at h0 h1 h2 hpos ⊢ <;>
      first
      | rfl
      | omega

/-- When the count/matrix coupling holds and the total example count is
positive, the rebuild produces a non-null matrix. -/
theorem buildReferenceSet_isSome (s : ClassifierState α)
    (hsize : SizeInv s) (hinv : CountMatrixInv s) (hpos : 0 < getNumExamples s) :
    (buildReferenceSet s).isSome := by
  obtain ⟨hclen, hmlen⟩ := hsize
  obtain ⟨c0, c1, c2, hc⟩ := length_three_cases s.classExampleCount hclen
  obtain ⟨m0, m1, m2, hm⟩ := length_three_cases s.trainClassLogitsMatrices hmlen
  have h0 := hinv 0 (by norm_num [CLASS_COUNT])
  have h1 := hinv 1 (by norm_num [CLASS_COUNT])
  have h2 := hinv 2 (by norm_num [CLASS_COUNT])
  simp only [hm, hc, List.getD_cons_zero, List.getD_cons_succ] at h0 h1 h2
  rw [buildReferenceSet_eq s m0 m1 m2 hm]
  rw [getNumExamples, hc] at hpos
  rcases m0 with _ | a <;> rcases m1 with _ | b <;> rcases m2 with _ | d <;>
    simp_all [concat]

/-- C8: whenever the reference set is rebuilt, the resulting matrix is the
concatenation of all classes' example sets in fixed class-index order with
zero-example classes skipped (contributing no rows, causing no failure), and
its row count equals the total example count. -/
theorem buildReferenceSet_rows (s : ClassifierState α)
    (hsize : SizeInv s) (hrow : RowCountInv s) :
    ((buildReferenceSet s).getD []).length = getNumExamples s ∧
    (0 < getNumExamples s →
      buildReferenceSet s = some (exampleSet s 0 ++ exampleSet s 1 ++ exampleSet s 2)) :=
  buildReferenceSet_spec s hsize hrow

/-- Witness for C8: at the state with one recorded example for class `0`, the
rebuild is the one-row matrix of class `0`'s single example. -/
theorem buildReferenceSet_rows_witness :
    SizeInv recordedState ∧ RowCountInv recordedState ∧
      (((buildReferenceSet recordedState).getD []).length = getNumExamples recordedState ∧
        (0 < getNumExamples recordedState →
          buildReferenceSet recordedState =
            some (exampleSet recordedState 0 ++ exampleSet recordedState 1 ++
              exampleSet recordedState 2))) :=
  ⟨by decide, by decide, buildReferenceSet_rows recordedState (by decide) (by decide)⟩

end WebcamClassifier

namespace WebcamClassifier

variable {α : Type}

/-- Counterexample to C10 as stated: the reachable state `recordedState`
satisfies the count/matrix invariant, yet clear-class on class `0` — whose
null-cache path throws after nulling the class matrix and before resetting
the count — leaves a state that violates it. -/
theorem clearClass_breaks_inv :
    CountMatrixInv recordedState ∧
    deleteClassData recordedState 0 = JSOutcome.thrown brokenState ∧
    ¬ CountMatrixInv brokenState := by decide

/-- C10 (amended): construction establishes the invariant that a class's
count is positive exactly when its matrix is non-null; record-example
preserves it on every path; clear-class preserves it whenever it completes
normally (its null-cache error path instead leaves the cleared class's count
positive with a null matrix, see the counterexample); and under the invariant
a positive total example count makes the classification-tick rebuild produce
a non-null training matrix. -/
theorem operations_preserve_inv :
    CountMatrixInv (initState α) ∧
    (∀ (s : ClassifierState α) (v : α) (s' : ClassifierState α),
      SizeInv s → CountMatrixInv s →
      saveTrainingLogits s v = JSOutcome.ok s' ∨
        saveTrainingLogits s v = JSOutcome.thrown s' →
      CountMatrixInv s') ∧
    (∀ (s : ClassifierState α) (i : ℕ) (s' : ClassifierState α),
      SizeInv s → CountMatrixInv s →
      deleteClassData s i = JSOutcome.ok s' → CountMatrixInv s') ∧
    (∀ s : ClassifierState α, SizeInv s → CountMatrixInv s →
      0 < getNumExamples s → (buildReferenceSet s).isSome) := by
  refine ⟨?_, ?_, ?_, ?_⟩
  · intro i hi
    simp only [CLASS_COUNT] at hi
    have h1 : List.replicate CLASS_COUNT (0 : ℕ) = [0, 0, 0] := rfl
    have h2 : List.replicate CLASS_COUNT (none : Option (List α)) = [none, none, none] := rfl
    interval_cases i <;> simp [initState, h1, h2]
  · intro s v s' hsize hinv hor
    obtain ⟨hclen, hmlen⟩ := hsize
    cases hcur : s.current with
    | none =>
      rw [saveTrainingLogits_eq_of_no_current s v hcur] at hor
      rcases hor with h | h
      · exact absurd h (by simp)
      · obtain rfl : ({ s with trainLogitsMatrix := none } : ClassifierState α) = s' := by
          injection h
        intro j hj
        exact hinv j hj
    | some i =>
      cases hm : s.trainClassLogitsMatrices[i]? with
      | none =>
        rw [saveTrainingLogits_eq_of_oob s v i hcur hm] at hor
        rcases hor with h | h
        · exact absurd h (by simp)
        · obtain rfl : ({ s with trainLogitsMatrix := none } : ClassifierState α) = s' := by
            injection h
          intro j hj
          exact hinv j hj
      | some o =>
        have hilt : i < s.trainClassLogitsMatrices.length :=
          (List.getElem?_eq_some_iff.mp hm).1
        have hiclt : i < s.classExampleCount.length := by omega
        have hset : ∀ (x : Option (List α)),
            x.isSome →
            CountMatrixInv { s with
              trainLogitsMatrix := none
              trainClassLogitsMatrices := s.trainClassLogitsMatrices.set i x
              classExampleCount :=
                s.classExampleCount.set i (s.classExampleCount.getD i 0 + 1) } := by
          intro x hx j hj
          by_cases hji : j = i
          · subst hji
            rw [getD_set_self _ _ _ _ hilt, getD_set_self _ _ _ _ hiclt]
            simp [hx]
          · rw [getD_set_ne _ _ _ _ _ (fun h => hji h.symm),
              getD_set_ne _ _ _ _ _ (fun h => hji h.symm)]
            exact hinv j hj
        cases o with
        | none =>
          rw [saveTrainingLogits_eq_of_null s v i hcur hm] at hor
          rcases hor with h | h
          · obtain rfl := (JSOutcome.ok.injEq _ _).mp h
            exact hset (some [v]) rfl
          · exact absurd h (by simp)
        | some m =>
          by_cases hg : s.classExampleCount.getD i 0 = m.length
          · rw [saveTrainingLogits_eq_of_rows s v i m hcur hm hg] at hor
            rcases hor with h | h
            · obtain rfl := (JSOutcome.ok.injEq _ _).mp h
              exact hset (some (m ++ [v])) rfl
            · exact absurd h (by simp)
          · rw [saveTrainingLogits_eq_of_mismatch s v i m hcur hm hg] at hor
            rcases hor with h | h
            · exact absurd h (by simp)
            · obtain rfl : ({ s with trainLogitsMatrix := none } : ClassifierState α) = s' := by
                injection h
              intro j hj
              exact hinv j hj
  · intro s i s' hsize hinv h
    obtain ⟨hclen, hmlen⟩ := hsize
    cases hmd : s.trainClassLogitsMatrices.getD i none with
    | none =>
      rw [deleteClassData_eq_of_falsy s i hmd] at h
      obtain rfl := (JSOutcome.ok.injEq _ _).mp h
      exact hinv
    | some m =>
      have hilt : i < s.trainClassLogitsMatrices.length := by
        by_contra hcon
        rw [List.getD_eq_getElem?_getD, List.getElem?_eq_none (by omega)] at hmd
        exact absurd hmd (by simp)
      have hiclt : i < s.classExampleCount.length := by omega
      cases hc : s.trainLogitsMatrix with
      | none =>
        rw [deleteClassData_eq_of_null_cache s i m hmd hc] at h
        exact absurd h (by simp)
      | some t =>
        rw [deleteClassData_eq_of_cache s i m t hmd hc] at h
        obtain rfl := (JSOutcome.ok.injEq _ _).mp h
        intro j hj
        by_cases hji : j = i
        · subst hji
          rw [getD_set_self _ _ _ _ hilt, getD_set_self _ _ _ _ hiclt]
          simp
        · rw [getD_set_ne _ _ _ _ _ (fun h => hji h.symm),
            getD_set_ne _ _ _ _ _ (fun h => hji h.symm)]
          exact hinv j hj
  · intro s hsize hinv hpos
    exact buildReferenceSet_isSome s hsize hinv hpos

/-- Witness for C10's amended theorem, exercising its conjuncts at concrete
states: the fresh state satisfies the invariant, and at the reachable
one-example state the rebuild is non-null. -/
theorem operations_preserve_inv_witness :
    CountMatrixInv (initState ℕ) ∧ (buildReferenceSet recordedState).isSome :=
  ⟨(operations_preserve_inv (α := ℕ)).1,
    (operations_preserve_inv (α := ℕ)).2.2.2 recordedState (by decide) (by decide)
      (by decide)⟩

/-- C6: on a classification tick with no stored examples at all (and the
recording button up), `animate` only reschedules: no confidence vector is
delivered to the confidence callback, and no error is raised. -/
theorem animate_no_emit_when_empty (s : ClassifierState α) (v : α)
    (topk : ℕ → List ℕ) (hdown : s.isDown = false)
    (hzero : getNumExamples s = 0) :
    animate s v topk = (JSOutcome.ok s, none) := by
  simp [animate, hdown, hzero]

/-- Witness for C6 at the freshly constructed state: nothing is emitted. -/
theorem animate_no_emit_when_empty_witness :
    (initState ℕ).isDown = false ∧ getNumExamples (initState ℕ) = 0 ∧
      animate (initState ℕ) 0 (fun _ => []) = (JSOutcome.ok (initState ℕ), none) :=
  ⟨rfl, rfl, animate_no_emit_when_empty (initState ℕ) 0 (fun _ => []) rfl rfl⟩

end WebcamClassifier

namespace WebcamClassifier

variable {α : Type}

/-- With the constructor's three class counts, `getClassFromIndex` always
lands in `0 ≤ class < CLASS_COUNT` (the fallback itself is `2`). -/
theorem getClassFromIndex_lt (counts : List ℕ) (hlen : counts.length = CLASS_COUNT)
    (i : ℕ) : getClassFromIndex counts i < CLASS_COUNT := by
  obtain ⟨a, b, c, rfl⟩ := exists_three_of_length counts hlen
  simp only [getClassFromIndex, getClassFromIndexAux]
  split_ifs <;> simp [CLASS_COUNT]

/-- The `classTopKMap` fold over any three-bucket accumulator adds, per
bucket, the number of processed indices whose class is that bucket. -/
theorem classTopKMap_general (counts : List ℕ) (hlen : counts.length = CLASS_COUNT)
    (indices : List ℕ) :
    ∀ m : List ℕ, m.length = CLASS_COUNT → ∀ c < CLASS_COUNT,
      (indices.foldl
        (fun m idx =>
          let c := getClassFromIndex counts idx
          m.set c (m.getD c 0 + 1)) m).getD c 0 =
      m.getD c 0 + indices.countP (fun j => getClassFromIndex counts j == c) := by
  induction indices with
  | nil =>
    intro m hm c hc
    simp
  | cons j rest ih =>
    intro m hm c hc
    simp only [List.foldl_cons, List.countP_cons]
    rw [ih _ (by simp [hm]) c hc]
    have hcl := getClassFromIndex_lt counts hlen j
    by_cases hje : getClassFromIndex counts j = c
    · rw [hje, getD_set_self _ _ _ _ (by omega)]
      simp only [hje, beq_self_eq_true, if_pos]
      omega
    · rw [getD_set_ne _ _ _ _ _ hje]
      simp only [beq_iff_eq, hje, if_false]
      omega

/-- Each bucket of `classTopKMap` is the number of selected rows whose class
is that bucket. -/
theorem classTopKMap_getD (counts : List ℕ) (hlen : counts.length = CLASS_COUNT)
    (indices : List ℕ) (c : ℕ) (hc : c < CLASS_COUNT) :
    (classTopKMap counts indices).getD c 0 =
      indices.countP (fun j => getClassFromIndex counts j == c) := by
  have h := classTopKMap_general counts hlen indices [0, 0, 0] rfl c hc
  rw [classTopKMap, h]
  have hc3 : c < 3 := hc
  interval_cases c <;> simp

/-- Every selected row contributes to exactly one of the three buckets, so
the per-class tallies sum to the number of selected rows. -/
theorem countP_class_sum (counts : List ℕ) (hlen : counts.length = CLASS_COUNT)
    (indices : List ℕ) :
    indices.countP (fun j => getClassFromIndex counts j == 0) +
      indices.countP (fun j => getClassFromIndex counts j == 1) +
      indices.countP (fun j => getClassFromIndex counts j == 2) =
      indices.length := by
  induction indices with
  | nil => simp
  | cons j rest ih =>
    simp only [List.countP_cons, List.length_cons]
    have h := getClassFromIndex_lt counts hlen j
    simp only [CLASS_COUNT] at h
    have h3 : getClassFromIndex counts j = 0 ∨ getClassFromIndex counts j = 1 ∨
        getClassFromIndex counts j = 2 := by omega
    rcases h3 with h3 | h3 | h3 <;> simp [h3] <;> omega

/-- The emitted confidence list: per class the bucket tally divided by
`kVal`, with the tallies summing to the neighbour count, hence total mass
`1` when the selected rows number exactly `kVal > 0`. -/
theorem computeConfidences_spec (counts : List ℕ) (hlen : counts.length = CLASS_COUNT)
    (indices : List ℕ) (k : ℕ) (hk : indices.length = k) (hkpos : 0 < k) :
    (computeConfidences counts indices k).length = CLASS_COUNT ∧
    (∀ c < CLASS_COUNT, (computeConfidences counts indices k).getD c 0 =
      (indices.countP (fun j => getClassFromIndex counts j == c) : ℚ) / (k : ℚ)) ∧
    (computeConfidences counts indices k).sum = 1 := by
  have h0 := classTopKMap_getD counts hlen indices 0 (by norm_num [CLASS_COUNT])
  have h1 := classTopKMap_getD counts hlen indices 1 (by norm_num [CLASS_COUNT])
  have h2 := classTopKMap_getD counts hlen indices 2 (by norm_num [CLASS_COUNT])
  simp only [List.getD_eq_getElem?_getD] at h0 h1 h2
  have hrange : List.range CLASS_COUNT = [0, 1, 2] := rfl
  have hk0 : (k : ℚ) ≠ 0 := Nat.cast_ne_zero.mpr (by omega)
  refine ⟨by simp [computeConfidences], ?_, ?_⟩
  · intro c hc
    simp only [CLASS_COUNT] at hc
    interval_cases c <;>
      simp [computeConfidences, hrange, h0, h1, h2]
  · simp only [computeConfidences, hrange, List.map_cons, List.map_nil,
      List.sum_cons, List.sum_nil, List.getD_eq_getElem?_getD, h0, h1, h2, add_zero]
    rw [div_add_div_same, div_add_div_same]
    have hcast : (indices.countP (fun j => getClassFromIndex counts j == 0) : ℚ) +
        ((indices.countP (fun j => getClassFromIndex counts j == 1) : ℚ) +
          (indices.countP (fun j => getClassFromIndex counts j == 2) : ℚ)) = (k : ℚ) := by
      have hsum := countP_class_sum counts hlen indices
      rw [hk] at hsum
      have h' : ((indices.countP (fun j => getClassFromIndex counts j == 0) +
          indices.countP (fun j => getClassFromIndex counts j == 1) +
          indices.countP (fun j => getClassFromIndex counts j == 2) : ℕ) : ℚ) = (k : ℚ) := by
        exact_mod_cast congrArg (fun n : ℕ => (n : ℚ)) hsum
      push_cast at h'
      linarith
    rw [hcast]
    exact div_self hk0

end WebcamClassifier

namespace WebcamClassifier

variable {α : Type}

/-- `animate`, classification tick with a valid cached matrix: the cache is
used, `topK` is consulted at `kVal = min(TOPK, numExamples)`, and the
confidences are emitted. -/
theorem animate_eq_of_cached (s : ClassifierState α) (v : α) (topk : ℕ → List ℕ)
    (t : List α) (hdown : s.isDown = false) (hpos : 0 < getNumExamples s)
    (hc : s.trainLogitsMatrix = some t) (hlen : t.length = getNumExamples s) :
    animate s v topk =
      (JSOutcome.ok { s with trainLogitsMatrix := some t },
        some (computeConfidences s.classExampleCount
          (topk (min TOPK (getNumExamples s))) (min TOPK (getNumExamples s)))) := by
  simp [animate, hdown, hpos, hc, hlen]

/-- `animate`, classification tick with a null cache: the reference set is
rebuilt, cached, and the confidences are emitted. -/
theorem animate_eq_of_rebuild (s : ClassifierState α) (v : α) (topk : ℕ → List ℕ)
    (t : List α) (hdown : s.isDown = false) (hpos : 0 < getNumExamples s)
    (hc : s.trainLogitsMatrix = none) (hb : buildReferenceSet s = some t)
    (hlen : t.length = getNumExamples s) :
    animate s v topk =
      (JSOutcome.ok { s with trainLogitsMatrix := some t },
        some (computeConfidences s.classExampleCount
          (topk (min TOPK (getNumExamples s))) (min TOPK (getNumExamples s)))) := by
  simp [animate, hdown, hpos, hc, hb, hlen]

/-- C2: on every classification tick from a reachable state with `n > 0`
total examples, the number of neighbours considered is `K = min(TOPK, n)`
(`TOPK = 10`), a confidence vector is emitted whose entry for each class is
the number of the `K` selected rows belonging to that class (via the
row-to-class mapping) divided by `K`, and the emitted confidences sum to `1`,
in particular to at most `1`.  `topk` is the library's top-K oracle, assumed
only to return exactly as many indices as requested. -/
theorem classify_confidences (s : ClassifierState α) (v : α) (topk : ℕ → List ℕ)
    (hdown : s.isDown = false) (hpos : 0 < getNumExamples s)
    (hsize : SizeInv s) (hrow : RowCountInv s) (hcache : CacheInv s)
    (hk : (topk (min TOPK (getNumExamples s))).length = min TOPK (getNumExamples s)) :
    ∃ cs, (animate s v topk).2 = some cs ∧
      cs.length = CLASS_COUNT ∧
      (∀ c < CLASS_COUNT, cs.getD c 0 =
        ((topk (min TOPK (getNumExamples s))).countP
            (fun j => getClassFromIndex s.classExampleCount j == c) : ℚ) /
          ((min TOPK (getNumExamples s) : ℕ) : ℚ)) ∧
      cs.sum = 1 ∧ cs.sum ≤ 1 := by
  have hkpos : 0 < min TOPK (getNumExamples s) := by
    have : 0 < TOPK := by norm_num [TOPK]
    omega
  have hspec := computeConfidences_spec s.classExampleCount hsize.1
    (topk (min TOPK (getNumExamples s))) (min TOPK (getNumExamples s)) hk hkpos
  have hemit : (animate s v topk).2 =
      some (computeConfidences s.classExampleCount
        (topk (min TOPK (getNumExamples s))) (min TOPK (getNumExamples s))) := by
    cases hc : s.trainLogitsMatrix with
    | some t =>
      rw [animate_eq_of_cached s v topk t hdown hpos hc (hcache t hc)]
    | none =>
      obtain ⟨hrows, hbuild⟩ := buildReferenceSet_spec s hsize hrow
      obtain ⟨t, ht⟩ : ∃ t, buildReferenceSet s = some t := by
        cases hb : buildReferenceSet s with
        | none =>
          rw [hb] at hrows
          simp only [Option.getD_none, List.length_nil] at hrows
          omega
        | some t => exact ⟨t, rfl⟩
      have hlen : t.length = getNumExamples s := by
        rw [ht] at hrows
        simpa using hrows
      rw [animate_eq_of_rebuild s v topk t hdown hpos hc ht hlen]
  exact ⟨_, hemit, hspec.1, hspec.2.1, hspec.2.2, le_of_eq hspec.2.2⟩

/-- Witness for C2 at the one-example state: `K = min(10, 1) = 1`, the oracle
returns row `0`, and the emitted confidences are `[1, 0, 0]`. -/
theorem classify_confidences_witness :
    recordedClassifyState.isDown = false ∧ 0 < getNumExamples recordedClassifyState ∧
      ∃ cs, (animate recordedClassifyState 0 (fun _ => [0])).2 = some cs ∧
        cs.length = CLASS_COUNT ∧
        (∀ c < CLASS_COUNT, cs.getD c 0 =
          (((fun _ : ℕ => [0]) (min TOPK (getNumExamples recordedClassifyState))).countP
              (fun j => getClassFromIndex recordedClassifyState.classExampleCount j == c) : ℚ) /
            ((min TOPK (getNumExamples recordedClassifyState) : ℕ) : ℚ)) ∧
        cs.sum = 1 ∧ cs.sum ≤ 1 :=
  ⟨rfl, by decide,
    classify_confidences recordedClassifyState 0 (fun _ => [0]) rfl (by decide)
      (by decide) (by decide) (fun m hm => Option.noConfusion hm) (by decide)⟩

end WebcamClassifier

namespace WebcamClassifier

/-- A sum of squares is nonnegative. -/
theorem sumSq_nonneg (v : List ℝ) : 0 ≤ sumSq v := by
  induction v with
  | nil => simp [sumSq]
  | cons x xs ih =>
    simp only [sumSq, List.map_cons, List.sum_cons]
    exact add_nonneg (mul_self_nonneg x) ih

/-- A sum of squares vanishes exactly when every entry vanishes. -/
theorem sumSq_eq_zero_iff (v : List ℝ) : sumSq v = 0 ↔ ∀ x ∈ v, x = 0 := by
  induction v with
  | nil => simp [sumSq]
  | cons x xs ih =>
    simp only [sumSq, List.map_cons, List.sum_cons, List.mem_cons] at *
    constructor
    · intro h
      have hx2 : 0 ≤ x * x := mul_self_nonneg x
      have hxs : 0 ≤ (xs.map (fun y => y * y)).sum := sumSq_nonneg xs
      have h1 : x * x = 0 := by linarith
      have h2 : (xs.map (fun y => y * y)).sum = 0 := by linarith
      refine fun y hy => hy.elim (fun hyx => ?_) (fun hmem => ih.mp h2 y hmem)
      rw [hyx]
      exact mul_self_eq_zero.mp h1
    · intro h
      rw [h x (Or.inl rfl), ih.mpr (fun y hy => h y (Or.inr hy))]
      ring

/-- Dividing every entry by `c` divides the sum of squares by `c * c`. -/
theorem sumSq_map_div (v : List ℝ) (c : ℝ) :
    sumSq (v.map (fun x => x / c)) = sumSq v / (c * c) := by
  induction v with
  | nil => simp [sumSq]
  | cons x xs ih =>
    simp only [sumSq, List.map_cons, List.map_map, List.sum_cons] at *
    rw [ih, div_mul_div_comm, div_add_div_same]

/-- C7: the feature vector produced by the extraction pipeline — the raw
logits divided by the fixed squash constant `300` and then divided by the
square root of the sum of squares — has L2 norm exactly `1` (in idealized
real arithmetic) whenever the squashed logits are not all zero.  It is this
one function that produces both every stored and every query vector. -/
theorem captureFrame_unit_norm (logits : List ℝ)
    (h : ¬ ∀ x ∈ squashLogits logits, x = 0) :
    l2norm (captureFrameSqueezeNetLogits logits) = 1 := by
  have hne : sumSq (squashLogits logits) ≠ 0 :=
    fun h0 => h ((sumSq_eq_zero_iff (squashLogits logits)).mp h0)
  have hpos : 0 < sumSq (squashLogits logits) :=
    lt_of_le_of_ne (sumSq_nonneg (squashLogits logits)) (Ne.symm hne)
  show l2norm ((squashLogits logits).map
    (fun x => x / Real.sqrt (sumSq (squashLogits logits)))) = 1
  rw [l2norm, sumSq_map_div, Real.mul_self_sqrt (le_of_lt hpos),
    div_self hne]
  exact Real.sqrt_one

/-- Witness for C7 at the one-entry logits vector `[300]`: the squashed
vector is `[1]`, not all zero, and the normalized output has unit norm. -/
theorem captureFrame_unit_norm_witness :
    (¬ ∀ x ∈ squashLogits [300], x = 0) ∧
      l2norm (captureFrameSqueezeNetLogits [300]) = 1 := by
  have h : ¬ ∀ x ∈ squashLogits [300], x = 0 := by
    intro hall
    have h1 := hall (300 / squashLogitsDenominator) (by simp [squashLogits])
    rw [squashLogitsDenominator] at h1
    norm_num at h1
  exact ⟨h, captureFrame_unit_norm [300] h⟩

end WebcamClassifier
